import Mathlib

/-!
Verification of the sim_env abstraction layer (include/sim_env/SimEnv.h).

The header defines the interface contract of a backend-agnostic robot
simulator: a logging sink (`DefaultLogger`, the only concrete class in the
header), and pure-virtual interfaces for entities, objects, robots and the
world.  `DefaultLogger` is embedded directly from its source.  The
behaviour of the pure-virtual interfaces is fixed by the documented
contract; for those we build a reference model faithful to the contract's
words (each such definition is marked `Modelled from the spec:`) and prove
the contracted properties about it.
-/

set_option linter.unusedVariables false

namespace SimEnv

/-! ## Logger (embedded from `class Logger` / `class DefaultLogger`) -/

/-- Source: `enum class LogLevel { Debug=0, Info=1, Warn=2, Error=3 }`. -/
inductive LogLevel
  | Debug
  | Info
  | Warn
  | Error
deriving DecidableEq, Repr

/-- The numeric value each enumerator carries in the source
(`Debug=0, Info=1, Warn=2, Error=3`); C++ `<=` on the enum compares these. -/
def LogLevel.toNat : LogLevel → Nat
  | .Debug => 0
  | .Info => 1
  | .Warn => 2
  | .Error => 3

/-- Source: `class DefaultLogger`, whose only state is `LogLevel _lvl;`.
The output stream is modelled by returning `some line` when the guarded
`std::cout` write happens and `none` when it does not. -/
structure DefaultLogger where
  lvl : LogLevel
deriving DecidableEq, Repr

/-- Source: the private constructor `DefaultLogger() : _lvl(LogLevel::Info)`,
reached once through `getInstance()`. -/
def DefaultLogger.init : DefaultLogger := ⟨LogLevel.Info⟩

/-- Source: `void setLevel(LogLevel lvl) override { _lvl = lvl; }`. -/
def DefaultLogger.setLevel (l : DefaultLogger) (lvl : LogLevel) : DefaultLogger :=
  { l with lvl := lvl }

/-- Source: `LogLevel getLevel() const override { return _lvl; }`. -/
def DefaultLogger.getLevel (l : DefaultLogger) : LogLevel := l.lvl

/-- Source: `logErr` writes `"\033[1;31m[Error] " << prefix << " " << msg
<< " \033[0m "` to `std::cout` iff `_lvl <= LogLevel::Error`. -/
def DefaultLogger.logErr (l : DefaultLogger) (msg pfx : String) : Option String :=
  if l.lvl.toNat ≤ LogLevel.Error.toNat then
    some ("\x1b[1;31m[Error] " ++ pfx ++ " " ++ msg ++ " \x1b[0m ")
  else none

/-- Source: `logInfo` writes `"\033[1;32m[Info] " << prefix << " " << msg
<< " \033[0m "` to `std::cout` iff `_lvl <= LogLevel::Info`. -/
def DefaultLogger.logInfo (l : DefaultLogger) (msg pfx : String) : Option String :=
  if l.lvl.toNat ≤ LogLevel.Info.toNat then
    some ("\x1b[1;32m[Info] " ++ pfx ++ " " ++ msg ++ " \x1b[0m ")
  else none

/-- Source: `logWarn` writes `"\033[1;33m[Warning] " << prefix << " " << msg
<< " \033[0m "` to `std::cout` iff `_lvl <= LogLevel::Warn`. -/
def DefaultLogger.logWarn (l : DefaultLogger) (msg pfx : String) : Option String :=
  if l.lvl.toNat ≤ LogLevel.Warn.toNat then
    some ("\x1b[1;33m[Warning] " ++ pfx ++ " " ++ msg ++ " \x1b[0m ")
  else none

/-- Source: `logDebug` writes `"\033[1;35m[Debug] " << prefix << " " << msg
<< " \033[0m "` to `std::cout` iff `_lvl <= LogLevel::Debug`. -/
def DefaultLogger.logDebug (l : DefaultLogger) (msg pfx : String) : Option String :=
  if l.lvl.toNat ≤ LogLevel.Debug.toNat then
    some ("\x1b[1;35m[Debug] " ++ pfx ++ " " ++ msg ++ " \x1b[0m ")
  else none

/-- Source: `log(msg, level, prefix)` dispatches on `level` with a `switch`
to `logInfo`/`logErr`/`logDebug`/`logWarn`. -/
def DefaultLogger.log (l : DefaultLogger) (msg : String) (level : LogLevel)
    (pfx : String) : Option String :=
  match level with
  | .Info => l.logInfo msg pfx
  | .Error => l.logErr msg pfx
  | .Debug => l.logDebug msg pfx
  | .Warn => l.logWarn msg pfx

/-! ## Reference model of the pure-virtual entity/world interfaces

`SimEnv.h` only declares `Link`, `Joint`, `Object`, `Robot`, `World`
(every member is `= 0`); the concrete backends live outside this
repository.  The definitions below are a reference model of the
documented contract. -/

/-- Modelled from the spec: the world-frame rigid pose held by every
entity (`Eigen::Affine3f` in the header, whose geometry backend is out of
scope).  The model keeps a translation and a rotation parametrisation as
exact rationals. -/
structure Pose where
  x : ℚ
  y : ℚ
  z : ℚ
  rx : ℚ
  ry : ℚ
  rz : ℚ
deriving DecidableEq, Repr

/-- Modelled from the spec: one scalar of the `float`-valued limit arrays
(`Eigen::Array2f` in the header).  Exact values are rationals; the IEEE
special values a backend could in principle produce are explicit
constructors so that "never NaN or infinities" is statable. -/
inductive FloatVal
  | finite (q : ℚ)
  | nan
  | posInf
  | negInf
deriving DecidableEq, Repr

/-- `true` iff the value is an ordinary finite number (not NaN, not an
infinity). -/
def FloatVal.isFiniteVal : FloatVal → Bool
  | .finite _ => true
  | _ => false

/-- `std::numeric_limits<float>::min()`, the smallest positive normal
`float`, `2^-126` — the documented lower sentinel for an unlimited DOF. -/
def fltMin : FloatVal := FloatVal.finite (1 / 2 ^ 126)

/-- `std::numeric_limits<float>::max()`, `(2 - 2^-23) * 2^127` — the
documented upper sentinel for an unlimited DOF. -/
def fltMax : FloatVal := FloatVal.finite ((2 ^ 24 - 1) * 2 ^ 104)

/-- Modelled from the spec: the position/velocity/acceleration limit pairs
a DOF carries (`DOFInformation` in the header).  `none` means the axis is
unlimited; `some (lo, hi)` is a real `(min, max)` bound. -/
structure DOFLimits where
  position : Option (ℚ × ℚ)
  velocity : Option (ℚ × ℚ)
  acceleration : Option (ℚ × ℚ)
deriving DecidableEq, Repr

/-- Modelled from the spec: a `Joint` of an `Object` — `joint_index` is
the ordinal among the owning object's joints assigned at construction,
`dof_index` its index in the object's DOF addressing. -/
structure JointSpec where
  joint_index : Nat
  dof_index : Nat
  limits : DOFLimits
deriving DecidableEq, Repr

/-- Source: `struct ObjectState` — positions of ALL DOFs, velocities of
ALL DOFs, the object's pose, and the currently active DOFs. -/
structure ObjectState where
  dof_positions : List ℚ
  dof_velocities : List ℚ
  pose : Pose
  active_dofs : List Nat
deriving DecidableEq, Repr

/-- Modelled from the spec: the control callback bound to a `Robot`
(`Robot::ControlCallback`): it receives the robot's all-DOF positions,
all-DOF velocities and the timestep and returns the output force/torque
vector, or skip (`none`). -/
def Controller : Type := List ℚ → List ℚ → ℚ → Option (List ℚ)

/-- Modelled from the spec: an `Object` (and, when `controller` is bound,
a `Robot`) — name, `k = numBaseDOFs` base-pose DOFs, the joint records,
per-base-DOF limits, the all-DOF position/velocity state, the world-frame
pose, a sphere radius standing in for the backend collision geometry, and
the active-DOF set. -/
structure SimObject where
  name : String
  numBaseDOFs : Nat
  joints : List JointSpec
  base_limits : List DOFLimits
  dof_positions : List ℚ
  dof_velocities : List ℚ
  pose : Pose
  radius : ℚ
  active_dofs : List Nat
  controller : Option Controller

namespace SimObject

/-- Source doc (`getNumDOFs`): the total number of degrees of freedom;
spec: `numDOFs = numBaseDOFs + numJoints`. -/
def getNumDOFs (o : SimObject) : Nat := o.numBaseDOFs + o.joints.length

/-- Source doc (`getNumBaseDOFs`): 0 if the object is static, otherwise
the number of DOFs of the object's pose. -/
def getNumBaseDOFs (o : SimObject) : Nat := o.numBaseDOFs

/-- Source doc (`getDOFIndices`): all DOF indices the object has — the
base-pose indices `0..k-1` followed by every joint's `dof_index`. -/
def getDOFIndices (o : SimObject) : List Nat :=
  List.range o.numBaseDOFs ++ o.joints.map (fun j => j.dof_index)

/-- Source doc (`getActiveDOFs`): the currently active DOF indices. -/
def getActiveDOFs (o : SimObject) : List Nat := o.active_dofs

/-- Source doc (`setActiveDOFs`): replace the active-DOF set. -/
def setActiveDOFs (o : SimObject) (indices : List Nat) : SimObject :=
  { o with active_dofs := indices }

/-- Source doc (`getDOFPositions`): the DOF positions at the requested
indices; "It returns the active DoFs, if the vector is empty." -/
def getDOFPositions (o : SimObject) (indices : List Nat) : List ℚ :=
  let idx := if indices.isEmpty then o.active_dofs else indices
  idx.map (fun i => o.dof_positions.getD i 0)

/-- Source doc (`getDOFVelocities`): the DOF velocities at the requested
indices; "It returns the active DoFs, if the vector is empty." -/
def getDOFVelocities (o : SimObject) (indices : List Nat) : List ℚ :=
  let idx := if indices.isEmpty then o.active_dofs else indices
  idx.map (fun i => o.dof_velocities.getD i 0)

/-- Modelled from the spec: the per-DOF limit record behind
`Object::getDOFInformation` — base DOFs (index `< k`) read
`base_limits`, joint DOFs are found through the joint with that
`dof_index` (`getJointFromDOFIndex`); absent entries are unlimited. -/
def dofLimits (o : SimObject) (i : Nat) : DOFLimits :=
  if i < o.numBaseDOFs then o.base_limits.getD i ⟨none, none, none⟩
  else
    match o.joints.find? (fun j => j.dof_index == i) with
    | some j => j.limits
    | none => ⟨none, none, none⟩

/-- Source doc (limits getters): "If a DoF is unlimited, the
corresponding limits are (std::numeric_limits<float>::min(),
std::numeric_limits<float>::max())". -/
def limitPair : Option (ℚ × ℚ) → FloatVal × FloatVal
  | none => (fltMin, fltMax)
  | some (lo, hi) => (FloatVal.finite lo, FloatVal.finite hi)

/-- Source doc (`getDOFPositionLimits`): the `(min, max)` position-limit
rows for the requested DOFs, the active DOFs when the index list is
empty. -/
def getDOFPositionLimits (o : SimObject) (indices : List Nat) :
    List (FloatVal × FloatVal) :=
  let idx := if indices.isEmpty then o.active_dofs else indices
  idx.map (fun i => limitPair (o.dofLimits i).position)

/-- Source doc (`getDOFVelocityLimits`): as `getDOFPositionLimits`, for
velocity limits. -/
def getDOFVelocityLimits (o : SimObject) (indices : List Nat) :
    List (FloatVal × FloatVal) :=
  let idx := if indices.isEmpty then o.active_dofs else indices
  idx.map (fun i => limitPair (o.dofLimits i).velocity)

/-- Source doc (`getDOFAccelerationLimits`): as `getDOFPositionLimits`,
for acceleration limits. -/
def getDOFAccelerationLimits (o : SimObject) (indices : List Nat) :
    List (FloatVal × FloatVal) :=
  let idx := if indices.isEmpty then o.active_dofs else indices
  idx.map (fun i => limitPair (o.dofLimits i).acceleration)

/-- Write `vals` into `base` at positions `idx` (positionally paired). -/
def setIndexed (base : List ℚ) (idx : List Nat) (vals : List ℚ) : List ℚ :=
  (idx.zip vals).foldl (fun acc p => acc.set p.1 p.2) base

/-- Source doc (`setDOFPositions`): set the DOF positions at the given
indices; "It sets the active DoFs, if no indices are given." -/
def setDOFPositions (o : SimObject) (values : List ℚ) (indices : List Nat) :
    SimObject :=
  let idx := if indices.isEmpty then o.active_dofs else indices
  { o with dof_positions := setIndexed o.dof_positions idx values }

/-- Source doc (`setDOFVelocities`): set the DOF velocities at the given
indices; "It sets the active DoFs, if the vector is empty." -/
def setDOFVelocities (o : SimObject) (values : List ℚ) (indices : List Nat) :
    SimObject :=
  let idx := if indices.isEmpty then o.active_dofs else indices
  { o with dof_velocities := setIndexed o.dof_velocities idx values }

/-- Source doc (`setTransform`): set the object's world-frame pose. -/
def setTransform (o : SimObject) (p : Pose) : SimObject := { o with pose := p }

/-- Source doc (`getState`): the object's current `ObjectState`. -/
def getState (o : SimObject) : ObjectState :=
  ⟨o.dof_positions, o.dof_velocities, o.pose, o.active_dofs⟩

/-- Source doc (`setState`): restore the object from an `ObjectState`
snapshot — all DOF positions, all DOF velocities, pose and active set. -/
def setState (o : SimObject) (s : ObjectState) : SimObject :=
  { o with
    dof_positions := s.dof_positions
    dof_velocities := s.dof_velocities
    pose := s.pose
    active_dofs := s.active_dofs }

end SimObject

/-- Modelled from the spec: construction of an object's joints — the
ordinal `joint_index` is "assigned at construction", and
`dof_index = joint_index + k` where `k` is the number of base-pose DOFs
(`Object::getJointFromDOFIndex` doc). -/
def mkJoints (k : Nat) : Nat → List DOFLimits → List JointSpec
  | _, [] => []
  | i, l :: ls => ⟨i, i + k, l⟩ :: mkJoints k (i + 1) ls

/-- Modelled from the spec: construction of an `Object` with `k`
base-pose DOFs and one joint per entry of `joint_limits`, zero initial
state, and the active-DOF set "defaulting to all DOFs at construction". -/
def mkObject (nm : String) (k : Nat) (base_limits joint_limits : List DOFLimits)
    (p : Pose) (r : ℚ) : SimObject :=
  { name := nm
    numBaseDOFs := k
    joints := mkJoints k 0 joint_limits
    base_limits := base_limits
    dof_positions := List.replicate (k + joint_limits.length) 0
    dof_velocities := List.replicate (k + joint_limits.length) 0
    pose := p
    radius := r
    active_dofs := List.range (k + joint_limits.length)
    controller := none }

/-! ## Collision query (reference test double) -/

/-- Squared world-frame distance between two poses' translations. -/
def distSq (p q : Pose) : ℚ :=
  (p.x - q.x) ^ 2 + (p.y - q.y) ^ 2 + (p.z - q.z) ^ 2

/-- Modelled from the spec: the pairwise `World::checkCollision(object_a,
object_b)` primitive.  The narrow-phase geometry backend is out of scope;
the reference test double gives each object a sphere (pose translation,
`radius`).  Self-collision is excluded: a query never reports a pair
where both sides resolve to the same entity. -/
def checkCollision (a b : SimObject) : Bool :=
  if a.name = b.name then false
  else decide (distSq a.pose b.pose ≤ (a.radius + b.radius) ^ 2)

/-! ## World: registry, state stack, physics stepping -/

/-- Source: `typedef std::map<std::string, ObjectState> WorldState` —
a mapping from object name to `ObjectState`, here an association list. -/
def WorldState : Type := List (String × ObjectState)

/-- Name lookup in a `WorldState` (the `std::map` find). -/
def wsLookup (nm : String) : WorldState → Option ObjectState
  | [] => none
  | (k, v) :: rest => if k = nm then some v else wsLookup nm rest

/-- Modelled from the spec: a `World` — the name-keyed object/robot
registry, the LIFO state stack (head = top), and the physics timestep. -/
structure SimWorld where
  objects : List SimObject
  state_stack : List WorldState
  physics_timestep : ℚ

namespace SimWorld

/-- The per-object snapshot entries of `getWorldState`. -/
def snapshotObjects (l : List SimObject) : WorldState :=
  l.map (fun o => (o.name, o.getState))

/-- Source doc (`getWorldState`): "the state of this world, i.e. all
ObjectStates for all objects/robots". -/
def getWorldState (w : SimWorld) : WorldState := snapshotObjects w.objects

/-- Source doc (`saveState`): push the current world state onto the
internal state stack. -/
def saveState (w : SimWorld) : SimWorld :=
  { w with state_stack := w.getWorldState :: w.state_stack }

/-- Apply the state saved for an object's name, if any, to the object. -/
def restoreObject (s : WorldState) (o : SimObject) : SimObject :=
  match wsLookup o.name s with
  | some os => o.setState os
  | none => o

/-- Modelled from the spec: applying a `WorldState` to the registry —
"applies it to the corresponding named objects" (states are keyed by
name). -/
def applyWorldState (w : SimWorld) (s : WorldState) : SimWorld :=
  { w with objects := w.objects.map (restoreObject s) }

/-- Source doc (`restoreState`): "Restores the last saved state.
@return true iff there was a state to restore to" — pops the top stack
entry and applies it; on an empty stack it returns `false` and mutates
nothing. -/
def restoreState (w : SimWorld) : Bool × SimWorld :=
  match w.state_stack with
  | [] => (false, w)
  | s :: rest => (true, applyWorldState { w with state_stack := rest } s)

/-- Modelled from the spec: `loadWorld` repopulates the registry from a
backend-parsed file (format out of scope) and drops the saved states
("this state is automatically dropped if a new world is loaded"). -/
def loadWorld (w : SimWorld) (newObjects : List SimObject) : SimWorld :=
  { objects := newObjects
    state_stack := []
    physics_timestep := w.physics_timestep }

/-- Modelled from the spec: registering one more object; the saved states
are dropped ("... or an object is added or removed"). -/
def addObject (w : SimWorld) (o : SimObject) : SimWorld :=
  { w with objects := w.objects ++ [o], state_stack := [] }

/-- Modelled from the spec: removing an object by name; the saved states
are dropped ("... or an object is added or removed"). -/
def removeObject (w : SimWorld) (nm : String) : SimWorld :=
  { w with objects := w.objects.filter (fun o => o.name != nm), state_stack := [] }

/-- Apply `f` to the registered object(s) carrying name `nm`. -/
def applyToNamed (w : SimWorld) (nm : String) (f : SimObject → SimObject) :
    SimWorld :=
  { w with objects := w.objects.map (fun o => if o.name = nm then f o else o) }

end SimWorld

/-- A mutation of registered objects' state through the `Object`
setters — the operations a planner may perform between `saveState` and
`restoreState` (none of them touches the registry or the stack). -/
inductive Mutation
  | setPositions (nm : String) (values : List ℚ) (indices : List Nat)
  | setVelocities (nm : String) (values : List ℚ) (indices : List Nat)
  | setTransform (nm : String) (p : Pose)
  | setActiveDOFs (nm : String) (indices : List Nat)

namespace SimWorld

/-- Dispatch one `Mutation` to the named object's setter. -/
def applyMutation (w : SimWorld) : Mutation → SimWorld
  | .setPositions nm vals idx =>
      w.applyToNamed nm (fun o => o.setDOFPositions vals idx)
  | .setVelocities nm vals idx =>
      w.applyToNamed nm (fun o => o.setDOFVelocities vals idx)
  | .setTransform nm p => w.applyToNamed nm (fun o => o.setTransform p)
  | .setActiveDOFs nm idx => w.applyToNamed nm (fun o => o.setActiveDOFs idx)

/-- A sequence of state mutations, applied left to right. -/
def applyMutations (w : SimWorld) (ms : List Mutation) : SimWorld :=
  ms.foldl applyMutation w

end SimWorld

/-! ## Controller invocation during physics stepping -/

/-- One controller invocation record: which robot's controller was called
and with which arguments (all-DOF positions, all-DOF velocities,
timestep). -/
structure ControlInvocation where
  robot_name : String
  positions : List ℚ
  velocities : List ℚ
  timestep : ℚ
deriving DecidableEq, Repr

/-- Modelled from the spec: phase (1) of one physics step — walk the
registry and, for every robot with a bound controller, invoke it with the
robot's current all-DOF positions, all-DOF velocities and the configured
timestep.  Returns the invocation records in registry order. -/
def invocationsOf (ts : ℚ) : List SimObject → List ControlInvocation
  | [] => []
  | o :: rest =>
    match o.controller with
    | some _ => ⟨o.name, o.dof_positions, o.dof_velocities, ts⟩ :: invocationsOf ts rest
    | none => invocationsOf ts rest

/-- The generalized force a stepped robot receives: the bound
controller's output for the current state, or `none` (skip / no
controller). -/
def controlOutput (ts : ℚ) (o : SimObject) : Option (List ℚ) :=
  match o.controller with
  | some c => c o.dof_positions o.dof_velocities ts
  | none => none

/-- Modelled from the spec: phase (2) of one physics step for one object —
the backend integrator (out of scope) is a reference symplectic-Euler
double; a skipped controller defaults to zero applied force. -/
def eulerIntegrate (ts : ℚ) (o : SimObject) (force : Option (List ℚ)) :
    SimObject :=
  let f := force.getD (List.replicate o.dof_velocities.length 0)
  let newVel := (o.dof_velocities.zip f).map (fun p => p.1 + ts * p.2)
  let newPos := (o.dof_positions.zip newVel).map (fun p => p.1 + ts * p.2)
  { o with dof_positions := newPos, dof_velocities := newVel }

namespace SimWorld

/-- The controller invocations performed during one simulated step of
this world, taken before dynamics advance. -/
def stepInvocations (w : SimWorld) : List ControlInvocation :=
  invocationsOf w.physics_timestep w.objects

/-- Modelled from the spec: one simulated step of `World::stepPhysics` —
every bound controller is invoked with the pre-step state, then the
backend advances every object's dynamics by one physics timestep using
the produced forces. -/
def stepPhysicsOnce (w : SimWorld) : SimWorld :=
  { w with
    objects := w.objects.map (fun o =>
      eulerIntegrate w.physics_timestep o (controlOutput w.physics_timestep o)) }

/-- Source doc (`stepPhysics(steps)`): issue `steps` physics simulation
steps. -/
def stepPhysics (w : SimWorld) : Nat → SimWorld
  | 0 => w
  | n + 1 => stepPhysics (stepPhysicsOnce w) n

end SimWorld

/-! ## Concrete inputs used by the witness theorems -/

/-- A static object ("a"): no base DOFs, one revolute-style joint. -/
def witObjA : SimObject :=
  mkObject "a" 0 [] [⟨none, none, none⟩] ⟨0, 0, 0, 0, 0, 0⟩ 1

/-- A free rigid body ("b"): six base DOFs, no joints, all unlimited. -/
def witObjB : SimObject :=
  mkObject "b" 6 (List.replicate 6 ⟨none, none, none⟩) [] ⟨1, 0, 0, 0, 0, 0⟩ 1

/-- A two-object world with an empty state stack. -/
def witWorldAB : SimWorld := ⟨[witObjA, witObjB], [], 1 / 100⟩

/-- A controller that always outputs a unit generalized force. -/
def witController : Controller := fun _ _ _ => some [1]

/-- A one-DOF robot ("bot") with `witController` bound. -/
def witRobot : SimObject :=
  { name := "bot"
    numBaseDOFs := 0
    joints := [⟨0, 0, ⟨none, none, none⟩⟩]
    base_limits := []
    dof_positions := [1 / 2]
    dof_velocities := [0]
    pose := ⟨0, 0, 0, 0, 0, 0⟩
    radius := 1
    active_dofs := [0]
    controller := some witController }

/-- A world holding the robot and a controller-less object. -/
def witWorldRobot : SimWorld := ⟨[witRobot, witObjA], [], 1 / 100⟩

/-! ## Helper lemmas -/

/-- An option produced by a guarded write is present iff the guard holds. -/
lemma isSome_ite_some {α : Type} (c : Prop) [Decidable c] (x : α) :
    (if c then some x else none).isSome = decide c := by
  by_cases h : c <;> simp [h]

/-- `mkJoints` produces one joint per limit record. -/
lemma mkJoints_length (k : Nat) :
    ∀ (ls : List DOFLimits) (i : Nat), (mkJoints k i ls).length = ls.length
  | [], _ => rfl
  | l :: ls, i => by simp [mkJoints, mkJoints_length k ls (i + 1)]

/-- The DOF indices of the joints built from ordinal `i` are the
consecutive block starting at `i + k`. -/
lemma mkJoints_map_dof (k : Nat) :
    ∀ (ls : List DOFLimits) (i : Nat),
      (mkJoints k i ls).map (fun j => j.dof_index) = List.range' (i + k) ls.length
  | [], _ => rfl
  | l :: ls, i => by
    simp [mkJoints, List.range'_succ, mkJoints_map_dof k ls (i + 1)]
    omega
  termination_by ls => ls.length

/-- Every joint built by `mkJoints` satisfies
`dof_index = joint_index + k`. -/
lemma mkJoints_dof_eq (k : Nat) :
    ∀ (ls : List DOFLimits) (i : Nat) (j : JointSpec),
      j ∈ mkJoints k i ls → j.dof_index = j.joint_index + k := by
  intro ls
  induction ls with
  | nil => intro i j hj; cases hj
  | cons l ls ih =>
    intro i j hj
    rcases List.mem_cons.mp hj with rfl | hmem
    · rfl
    · exact ih (i + 1) j hmem

/-- `setState` fully overwrites the observable state with the snapshot. -/
lemma getState_setState (o : SimObject) (s : ObjectState) :
    (o.setState s).getState = s := rfl

/-- In a registry with pairwise-distinct names, looking an object's own
name up in the registry's snapshot yields that object's state. -/
lemma wsLookup_snapshot (l : List SimObject)
    (hn : (l.map SimObject.name).Nodup) :
    ∀ o ∈ l, wsLookup o.name (SimWorld.snapshotObjects l) = some o.getState := by
  induction l with
  | nil => intro o ho; cases ho
  | cons x xs ih =>
    intro o ho
    have hx : x.name ∉ xs.map SimObject.name := (List.nodup_cons.mp hn).1
    rcases List.mem_cons.mp ho with rfl | hmem
    · simp [SimWorld.snapshotObjects, wsLookup]
    · have hne : ¬x.name = o.name := fun h =>
        hx (h ▸ List.mem_map_of_mem SimObject.name hmem)
      show wsLookup o.name ((x.name, x.getState) :: SimWorld.snapshotObjects xs)
        = some o.getState
      rw [wsLookup, if_neg hne]
      exact ih (List.nodup_cons.mp hn).2 o hmem

/-- Applying a state table that holds every original object's state to a
registry with the same name sequence recovers the original snapshot. -/
lemma snapshot_restore (tbl : WorldState) :
    ∀ (orig cur : List SimObject),
      cur.map SimObject.name = orig.map SimObject.name →
      (∀ o ∈ orig, wsLookup o.name tbl = some o.getState) →
      SimWorld.snapshotObjects (cur.map (SimWorld.restoreObject tbl))
        = SimWorld.snapshotObjects orig := by
  intro orig
  induction orig with
  | nil =>
    intro cur hname _
    cases cur with
    | nil => rfl
    | cons c cs => simp at hname
  | cons o os ih =>
    intro cur hname htbl
    cases cur with
    | nil => simp at hname
    | cons c cs =>
      rw [List.map_cons, List.map_cons] at hname
      injection hname with hc hcs
      have hlook : wsLookup c.name tbl = some o.getState := by
        rw [hc]; exact htbl o (List.mem_cons_self o os)
      have hro : SimWorld.restoreObject tbl c = c.setState o.getState := by
        unfold SimWorld.restoreObject
        rw [hlook]
      have htail := ih cs hcs (fun o' h => htbl o' (List.mem_cons_of_mem o h))
      calc SimWorld.snapshotObjects ((c :: cs).map (SimWorld.restoreObject tbl))
          = ((SimWorld.restoreObject tbl c).name,
              (SimWorld.restoreObject tbl c).getState)
              :: SimWorld.snapshotObjects (cs.map (SimWorld.restoreObject tbl)) := rfl
        _ = (o.name, o.getState) :: SimWorld.snapshotObjects os := by
            rw [hro, getState_setState, htail]
            show (c.name, o.getState) :: _ = _
            rw [hc]

/-- `applyToNamed` with a name-preserving update keeps the registry's
name sequence. -/
lemma applyToNamed_names (w : SimWorld) (nm : String) (f : SimObject → SimObject)
    (hf : ∀ o, (f o).name = o.name) :
    (w.applyToNamed nm f).objects.map SimObject.name
      = w.objects.map SimObject.name := by
  show (w.objects.map _).map _ = _
  rw [List.map_map]
  apply List.map_congr_left
  intro a _
  by_cases h : a.name = nm <;> simp [h, hf]

/-- A state mutation never changes which names are registered. -/
lemma applyMutation_names (w : SimWorld) (m : Mutation) :
    (w.applyMutation m).objects.map SimObject.name
      = w.objects.map SimObject.name := by
  cases m <;> exact applyToNamed_names _ _ _ (fun o => rfl)

/-- A state mutation never touches the state stack. -/
lemma applyMutation_stack (w : SimWorld) (m : Mutation) :
    (w.applyMutation m).state_stack = w.state_stack := by
  cases m <;> rfl

/-- A sequence of state mutations keeps the registry's name sequence. -/
lemma applyMutations_names (ms : List Mutation) :
    ∀ (w : SimWorld),
      (w.applyMutations ms).objects.map SimObject.name
        = w.objects.map SimObject.name := by
  induction ms with
  | nil => intro w; rfl
  | cons m ms ih =>
    intro w
    show ((w.applyMutation m).applyMutations ms).objects.map SimObject.name = _
    rw [ih, applyMutation_names]

/-- A sequence of state mutations never touches the state stack. -/
lemma applyMutations_stack (ms : List Mutation) :
    ∀ (w : SimWorld), (w.applyMutations ms).state_stack = w.state_stack := by
  induction ms with
  | nil => intro w; rfl
  | cons m ms ih =>
    intro w
    show ((w.applyMutation m).applyMutations ms).state_stack = _
    rw [ih, applyMutation_stack]

/-- `restoreState` on a world whose stack has a top entry pops and
applies it. -/
lemma restoreState_cons (w : SimWorld) (s : WorldState) (rest : List WorldState)
    (h : w.state_stack = s :: rest) :
    w.restoreState
      = (true, SimWorld.applyWorldState { w with state_stack := rest } s) := by
  obtain ⟨objs, stack, ts⟩ := w
  cases h
  rfl

/-- `restoreState` on a world with an empty stack reports failure and
returns the world unchanged. -/
lemma restoreState_nil (w : SimWorld) (h : w.state_stack = []) :
    w.restoreState = (false, w) := by
  obtain ⟨objs, stack, ts⟩ := w
  cases h
  rfl

/-- Every invocation record produced while stepping a registry names one
of the registry's objects. -/
lemma invocationsOf_names (ts : ℚ) :
    ∀ (l : List SimObject) (inv : ControlInvocation),
      inv ∈ invocationsOf ts l → inv.robot_name ∈ l.map SimObject.name := by
  intro l
  induction l with
  | nil => intro inv h; cases h
  | cons x xs ih =>
    intro inv h
    cases hc : x.controller with
    | some c =>
      rw [invocationsOf, hc] at h
      rcases List.mem_cons.mp h with rfl | hmem
      · exact List.mem_cons_self _ _
      · exact List.mem_cons_of_mem _ (ih inv hmem)
    | none =>
      rw [invocationsOf, hc] at h
      exact List.mem_cons_of_mem _ (ih inv h)

/-! ## Claim theorems -/

/-- C1: for every object constructed with `k` base DOFs and `n` joints,
`getNumDOFs` equals `k + n`, `getDOFIndices` is exactly
`{0, …, k+n−1}` (in order), and every joint with `joint_index = i` has
`dof_index = i + k`. -/
theorem dof_indexing_invariant (nm : String) (k : Nat)
    (bl jl : List DOFLimits) (p : Pose) (r : ℚ) :
    (mkObject nm k bl jl p r).getNumDOFs = k + jl.length
    ∧ (mkObject nm k bl jl p r).getDOFIndices = List.range (k + jl.length)
    ∧ ∀ j ∈ (mkObject nm k bl jl p r).joints,
        j.dof_index = j.joint_index + k := by
  refine ⟨?_, ?_, ?_⟩
  · show k + (mkJoints k 0 jl).length = k + jl.length
    rw [mkJoints_length]
  · show List.range k ++ (mkJoints k 0 jl).map (fun j => j.dof_index)
      = List.range (k + jl.length)
    rw [mkJoints_map_dof, Nat.zero_add, List.range_add]
    congr 1
    rw [List.range'_eq_map_range]
  · intro j hj
    exact mkJoints_dof_eq k jl 0 j hj

/-- C2: every DOF-state accessor called with an empty index list operates
on the current active-DOF set, in the active set's order; in particular
`getDOFPositions []` equals `getDOFPositions getActiveDOFs`. -/
theorem empty_index_list_means_active_dofs (o : SimObject) (vals : List ℚ) :
    o.getDOFPositions [] = o.getDOFPositions o.getActiveDOFs
    ∧ o.getDOFVelocities [] = o.getDOFVelocities o.getActiveDOFs
    ∧ o.getDOFPositionLimits [] = o.getDOFPositionLimits o.getActiveDOFs
    ∧ o.getDOFVelocityLimits [] = o.getDOFVelocityLimits o.getActiveDOFs
    ∧ o.getDOFAccelerationLimits [] = o.getDOFAccelerationLimits o.getActiveDOFs
    ∧ o.setDOFPositions vals [] = o.setDOFPositions vals o.getActiveDOFs
    ∧ o.setDOFVelocities vals [] = o.setDOFVelocities vals o.getActiveDOFs
    ∧ o.getDOFPositions []
        = o.getActiveDOFs.map (fun i => o.dof_positions.getD i 0) := by
  refine ⟨?_, ?_, ?_, ?_, ?_, ?_, ?_, ?_⟩ <;>
    simp [SimObject.getDOFPositions, SimObject.getDOFVelocities,
      SimObject.getDOFPositionLimits, SimObject.getDOFVelocityLimits,
      SimObject.getDOFAccelerationLimits, SimObject.setDOFPositions,
      SimObject.setDOFVelocities, SimObject.getActiveDOFs, ite_self]

/-- C6: the boolean result of the pairwise collision query is independent
of argument order. -/
theorem checkCollision_comm (a b : SimObject) :
    checkCollision a b = checkCollision b a := by
  unfold checkCollision
  rcases eq_or_ne a.name b.name with h | h
  · rw [if_pos h, if_pos h.symm]
  · rw [if_neg h, if_neg (Ne.symm h)]
    have hd : distSq a.pose b.pose = distSq b.pose a.pose := by
      unfold distSq; ring
    rw [hd, add_comm a.radius b.radius]

/-- C7: `setState (getState)` leaves the object's observable state
(all-DOF positions, all-DOF velocities, pose, active-DOF set)
unchanged — in the model it restores the object exactly. -/
theorem setState_getState_id (o : SimObject) :
    o.setState o.getState = o
    ∧ (o.setState o.getState).getState = o.getState :=
  ⟨rfl, rfl⟩

/-- C8: for a DOF with no real limit, the three limit queries return the
sentinel pair (numeric-type minimum, numeric-type maximum), which is
finite — never NaN or an infinity. -/
theorem unlimited_dof_sentinel (o : SimObject) (i : Nat)
    (hp : (o.dofLimits i).position = none)
    (hv : (o.dofLimits i).velocity = none)
    (ha : (o.dofLimits i).acceleration = none) :
    o.getDOFPositionLimits [i] = [(fltMin, fltMax)]
    ∧ o.getDOFVelocityLimits [i] = [(fltMin, fltMax)]
    ∧ o.getDOFAccelerationLimits [i] = [(fltMin, fltMax)]
    ∧ fltMin.isFiniteVal = true
    ∧ fltMax.isFiniteVal = true := by
  refine ⟨?_, ?_, ?_, rfl, rfl⟩ <;>
    simp [SimObject.getDOFPositionLimits, SimObject.getDOFVelocityLimits,
      SimObject.getDOFAccelerationLimits, hp, hv, ha, SimObject.limitPair]

/-- Witness for C8: the free rigid body `witObjB` has an unlimited first
DOF, and the sentinel pair is indeed returned for it. -/
theorem unlimited_dof_sentinel_witness :
    witObjB.getDOFPositionLimits [0] = [(fltMin, fltMax)]
    ∧ witObjB.getDOFVelocityLimits [0] = [(fltMin, fltMax)]
    ∧ witObjB.getDOFAccelerationLimits [0] = [(fltMin, fltMax)]
    ∧ fltMin.isFiniteVal = true
    ∧ fltMax.isFiniteVal = true :=
  unlimited_dof_sentinel witObjB 0 (by decide) (by decide) (by decide)

/-- C9: each logging entry point emits iff the message's severity is at
least the configured threshold, under Debug < Info < Warn < Error, and
`setLevel` is what configures that threshold. -/
theorem logger_emits_iff_severity_reaches_threshold
    (l : DefaultLogger) (msg pfx : String) (level : LogLevel) :
    (l.logErr msg pfx).isSome = decide (l.getLevel.toNat ≤ LogLevel.Error.toNat)
    ∧ (l.logInfo msg pfx).isSome = decide (l.getLevel.toNat ≤ LogLevel.Info.toNat)
    ∧ (l.logWarn msg pfx).isSome = decide (l.getLevel.toNat ≤ LogLevel.Warn.toNat)
    ∧ (l.logDebug msg pfx).isSome = decide (l.getLevel.toNat ≤ LogLevel.Debug.toNat)
    ∧ (l.log msg level pfx).isSome = decide (l.getLevel.toNat ≤ level.toNat)
    ∧ (l.setLevel level).getLevel = level
    ∧ LogLevel.Debug.toNat < LogLevel.Info.toNat
    ∧ LogLevel.Info.toNat < LogLevel.Warn.toNat
    ∧ LogLevel.Warn.toNat < LogLevel.Error.toNat := by
  refine ⟨?_, ?_, ?_, ?_, ?_, rfl, by decide, by decide, by decide⟩
  · exact isSome_ite_some _ _
  · exact isSome_ite_some _ _
  · exact isSome_ite_some _ _
  · exact isSome_ite_some _ _
  · cases level <;> exact isSome_ite_some _ _

/-- C10: a freshly constructed `DefaultLogger` has threshold Info:
`getLevel` returns Info, `logDebug` emits nothing, and
`logInfo`/`logWarn`/`logErr` emit. -/
theorem default_logger_starts_at_info (msg pfx : String) :
    DefaultLogger.init.getLevel = LogLevel.Info
    ∧ DefaultLogger.init.logDebug msg pfx = none
    ∧ (DefaultLogger.init.logInfo msg pfx).isSome = true
    ∧ (DefaultLogger.init.logWarn msg pfx).isSome = true
    ∧ (DefaultLogger.init.logErr msg pfx).isSome = true := by
  refine ⟨rfl, ?_, ?_, ?_, ?_⟩ <;>
    simp [DefaultLogger.init, DefaultLogger.logDebug, DefaultLogger.logInfo,
      DefaultLogger.logWarn, DefaultLogger.logErr, LogLevel.toNat]

/-- C3: after `saveState` and any sequence of object-state mutations,
`restoreState` succeeds and brings every registered object back to its
state at the save; a further `restoreState` on the now-empty stack
returns `false` and mutates nothing. -/
theorem save_mutate_restore_roundtrip (w : SimWorld) (ms : List Mutation)
    (hn : (w.objects.map SimObject.name).Nodup)
    (hstack : w.state_stack = []) :
    ((w.saveState.applyMutations ms).restoreState).1 = true
    ∧ ((w.saveState.applyMutations ms).restoreState).2.getWorldState
        = w.getWorldState
    ∧ ((w.saveState.applyMutations ms).restoreState).2.restoreState
        = (false, ((w.saveState.applyMutations ms).restoreState).2) := by
  have hstk1 : (w.saveState.applyMutations ms).state_stack = [w.getWorldState] := by
    rw [applyMutations_stack]
    show w.getWorldState :: w.state_stack = _
    rw [hstack]
  have hnames1 : (w.saveState.applyMutations ms).objects.map SimObject.name
      = w.objects.map SimObject.name := by
    rw [applyMutations_names]; rfl
  have hres := restoreState_cons (w.saveState.applyMutations ms)
    w.getWorldState [] hstk1
  refine ⟨by rw [hres], ?_, ?_⟩
  · rw [hres]
    show SimWorld.snapshotObjects
      ((w.saveState.applyMutations ms).objects.map
        (SimWorld.restoreObject w.getWorldState)) = _
    exact snapshot_restore w.getWorldState w.objects
      (w.saveState.applyMutations ms).objects hnames1
      (wsLookup_snapshot w.objects hn)
  · apply restoreState_nil
    rw [hres]
    rfl

/-- Witness for C3: a two-object world, one position mutation between
save and restore. -/
theorem save_mutate_restore_roundtrip_witness :
    ((witWorldAB.saveState.applyMutations
        [Mutation.setPositions "a" [5] [0]]).restoreState).1 = true
    ∧ ((witWorldAB.saveState.applyMutations
        [Mutation.setPositions "a" [5] [0]]).restoreState).2.getWorldState
        = witWorldAB.getWorldState
    ∧ ((witWorldAB.saveState.applyMutations
        [Mutation.setPositions "a" [5] [0]]).restoreState).2.restoreState
        = (false, ((witWorldAB.saveState.applyMutations
            [Mutation.setPositions "a" [5] [0]]).restoreState).2) :=
  save_mutate_restore_roundtrip witWorldAB [Mutation.setPositions "a" [5] [0]]
    (by decide) rfl

/-- C4: every registry-mutating operation (loading a world, adding or
removing an object) clears the state stack, so `restoreState` afterwards
returns `false` and changes nothing even though `saveState` was called
before the mutation. -/
theorem registry_mutation_discards_saved_states (w : SimWorld)
    (newObjects : List SimObject) (o : SimObject) (nm : String) :
    (w.saveState.loadWorld newObjects).state_stack = []
    ∧ (w.saveState.addObject o).state_stack = []
    ∧ (w.saveState.removeObject nm).state_stack = []
    ∧ (w.saveState.loadWorld newObjects).restoreState
        = (false, w.saveState.loadWorld newObjects)
    ∧ (w.saveState.addObject o).restoreState
        = (false, w.saveState.addObject o)
    ∧ (w.saveState.removeObject nm).restoreState
        = (false, w.saveState.removeObject nm) :=
  ⟨rfl, rfl, rfl, rfl, rfl, rfl⟩

/-- C5: during one simulated step, a registered robot with a bound
controller has the controller invoked exactly once, with the robot's
pre-step all-DOF positions and velocities and the configured timestep. -/
theorem controller_invoked_once_per_step (w : SimWorld) (o : SimObject)
    (hn : (w.objects.map SimObject.name).Nodup)
    (ho : o ∈ w.objects) (hc : o.controller.isSome = true) :
    w.stepInvocations.filter (fun inv => inv.robot_name == o.name)
      = [⟨o.name, o.dof_positions, o.dof_velocities, w.physics_timestep⟩] := by
  unfold SimWorld.stepInvocations
  revert hn ho
  generalize w.objects = l
  induction l with
  | nil => intro hn ho; cases ho
  | cons x xs ih =>
    intro hn ho
    have hx : x.name ∉ xs.map SimObject.name := (List.nodup_cons.mp hn).1
    rcases List.mem_cons.mp ho with rfl | hmem
    · obtain ⟨c, hcs⟩ := Option.isSome_iff_exists.mp hc
      rw [invocationsOf, hcs]
      rw [List.filter_cons_of_pos (by simp)]
      have hrest : (invocationsOf w.physics_timestep xs).filter
          (fun inv => inv.robot_name == o.name) = [] := by
        rw [List.filter_eq_nil_iff]
        intro inv hinv
        have : inv.robot_name ∈ xs.map SimObject.name :=
          invocationsOf_names w.physics_timestep xs inv hinv
        simp only [beq_iff_eq]
        intro he
        exact hx (he ▸ this)
      rw [hrest]
    · have hne : ¬(x.name == o.name) = true := by
        simp only [beq_iff_eq]
        intro he
        exact hx (he ▸ List.mem_map_of_mem SimObject.name hmem)
      have htail := ih (List.nodup_cons.mp hn).2 hmem
      cases hcs : x.controller with
      | some c =>
        rw [invocationsOf, hcs]
        show List.filter _ (⟨x.name, x.dof_positions, x.dof_velocities,
          w.physics_timestep⟩ :: invocationsOf w.physics_timestep xs) = _
        have hne3 : x.name ≠ o.name := by simpa using hne
        simp [List.filter_cons, hne3, htail]
      | none =>
        rw [invocationsOf, hcs, htail]

/-- Witness for C5: a world with one controlled robot and one plain
object; exactly one invocation, carrying the robot's state, occurs. -/
theorem controller_invoked_once_per_step_witness :
    witWorldRobot.stepInvocations.filter
        (fun inv => inv.robot_name == witRobot.name)
      = [⟨witRobot.name, witRobot.dof_positions, witRobot.dof_velocities,
          witWorldRobot.physics_timestep⟩] :=
  controller_invoked_once_per_step witWorldRobot witRobot (by decide)
    (List.mem_cons_self _ _) rfl

end SimEnv
